import Mathlib

/-!
Shallow embedding of `scripts/update_from_iana_subtag_registery.py`, the
registry-ingestion pipeline of the rust-language-tags repository.  The script
reads the IANA language-subtag registry line by line, groups the lines into
records, classifies each record by its `Type` field, serializes the fields of
each recognized record into a Rust struct literal, and finally writes one
sorted static array per record kind, preceded by the shared struct
declarations.  Python exceptions (`ValueError` from the field serializers,
`IndexError` from out-of-range list indexing) are modelled with `Except`:
an `Except.error` result models the run aborting before the destination
artifact is written, since the script only opens and writes the output file
after the whole classification loop has finished.  The Python generator
interleaves scanning and classification; since a run writes output only when
every line scans and every record classifies successfully, composing the two
phases sequentially yields the same artifact and the same success/failure
behaviour.
-/

/-- Errors a run can raise: `ValueError` with its message string
(`raise ValueError` with the message `multiple values: ` and the list), and `IndexError`
from `l[-1]` or `l[0]` on an empty list. -/
inductive Err where
  | valueError (msg : String)
  | indexError
deriving DecidableEq

/-- Whitespace characters removed by Python's `str.strip()` (ASCII range). -/
def isPyWs (c : Char) : Bool :=
  c = ' ' ∨ c = '\t' ∨ c = '\n' ∨ c = '\r' ∨ c = '\x0b' ∨ c = '\x0c'

/-- Model of `line.strip()`: remove leading and trailing whitespace. -/
def pyStrip (s : String) : String :=
  ⟨((s.data.dropWhile isPyWs).reverse.dropWhile isPyWs).reverse⟩

/-- Characters allowed in a field name by the pattern `[a-zA-Z0-9-]`. -/
def isFieldNameChar (c : Char) : Bool :=
  c.isAlphanum || c = '-'

/-- Model of `re.compile('^([a-zA-Z0-9-]+) *: *(.*)$').match(line)`: a
nonempty maximal run of field-name characters, optional spaces, a colon,
optional spaces, then the remainder as the value.  Returns the two capture
groups on success. -/
def fieldMatch (line : List Char) : Option (String × String) :=
  match line.takeWhile isFieldNameChar with
  | [] => none
  | c :: cs =>
    match (line.dropWhile isFieldNameChar).dropWhile (fun x => x = ' ') with
    | ':' :: rest => some (⟨c :: cs⟩, ⟨rest.dropWhile (fun x => x = ' ')⟩)
    | _ => none

/-- Model of the format call that wraps a value in double quotes. -/
def pyQuote (s : String) : String := "\"" ++ s ++ "\""

/-- Model of the Python string rendering of a list of strings, as it appears in
the `ValueError` messages: `['a', 'b']`. -/
def pyReprList (l : List String) : String :=
  "[" ++ String.intercalate ", " (l.map (fun s => "\x27" ++ s ++ "\x27")) ++ "]"

/-- Model of the Python slice `s[:-1]`: drop the last character. -/
def pySliceDropLast (s : String) : String := ⟨s.data.dropLast⟩

/-- Model of `s.split(' ')[0]`: the characters before the first space. -/
def firstWord (s : String) : String := ⟨s.data.takeWhile (fun c => c ≠ ' ')⟩

/-- A raw record: the insertion-ordered mapping built by
`defaultdict(list)`, from field name to the list of observed values.  The
key is `Option String` because the Python cursor `current_field` starts out
as `None`. -/
abbrev RawRecord := List (Option String × List String)

/-- Lookup of a key in a raw record (`k in record` / `record[k]`). -/
def lookupVals : RawRecord → Option String → Option (List String)
  | [], _ => none
  | (k', vs) :: rest, k => if k' = k then some vs else lookupVals rest k

/-- Model of `current_record[k].append(v)` on a `defaultdict(list)`:
append to the existing entry, or create the key at the end. -/
def appendVal : RawRecord → Option String → String → RawRecord
  | [], k, v => [(k, [v])]
  | (k', vs) :: rest, k, v =>
    if k' = k then (k', vs ++ [v]) :: rest else (k', vs) :: appendVal rest k v

/-- Model of `current_record[k][-1] += ext`: extend the last value of the
entry with key `k`. -/
def extendLast (r : RawRecord) (k : Option String) (ext : String) : RawRecord :=
  r.map (fun e => if e.1 = k then (e.1, e.2.dropLast ++ [e.2.getLastD "" ++ ext]) else e)

/-- Model of `record[f]` for a string field name on a `defaultdict(list)`
when the record is only read: the stored values, or `[]` when absent. -/
def getVals (r : RawRecord) (f : String) : List String :=
  (lookupVals r (some f)).getD []

/-- Model of `f in record`. -/
def hasField (r : RawRecord) (f : String) : Bool :=
  (lookupVals r (some f)).isSome

/-- Scanner state of `parse_registry`: the `current_field` cursor and the
record being accumulated. -/
structure ScanState where
  currentField : Option String
  currentRecord : RawRecord
deriving DecidableEq

/-- Initial scanner state: `current_record = defaultdict(list)`,
`current_field = None`. -/
def initScan : ScanState := ⟨none, []⟩

/-- One iteration of the scanner loop body of `parse_registry` on a raw
line: strip it; a `%%` line emits the accumulated record and resets it (the
field cursor is not reset); a field-pattern line opens that field and
appends the value; any other line is appended, preceded by a single space,
to the last value of the current field — raising `IndexError` when that
value list is absent or empty. -/
def scanStep (st : ScanState) (raw : String) : Except Err (ScanState × Option RawRecord) :=
  let line := pyStrip raw
  if line = "%%" then
    .ok ({ currentField := st.currentField, currentRecord := [] }, some st.currentRecord)
  else
    match fieldMatch line.data with
    | some (name, value) =>
      .ok ({ currentField := some name,
             currentRecord := appendVal st.currentRecord (some name) value }, none)
    | none =>
      match lookupVals st.currentRecord st.currentField with
      | some (_ :: _) =>
        .ok ({ currentField := st.currentField,
               currentRecord := extendLast st.currentRecord st.currentField (" " ++ line) }, none)
      | _ => .error .indexError

/-- The scanner loop of `parse_registry` from a given state; at
end-of-input the pending record is emitted when nonempty
(`if current_record: yield current_record`). -/
def parseFrom (st : ScanState) : List String → Except Err (List RawRecord)
  | [] => .ok (if st.currentRecord = [] then [] else [st.currentRecord])
  | l :: rest =>
    match scanStep st l with
    | .error e => .error e
    | .ok (st', none) => parseFrom st' rest
    | .ok (st', some r) =>
      match parseFrom st' rest with
      | .error e => .error e
      | .ok recs => .ok (r :: recs)

/-- Model of `parse_registry`: the full sequence of raw records produced
from the input line stream. -/
def parseRegistry (lines : List String) : Except Err (List RawRecord) :=
  parseFrom initScan lines

/-- Model of `serialize_mandatory`: exactly one value renders as a bare
quoted string, anything else raises `ValueError('multiple values: …')`. -/
def serialize_mandatory (l : List String) : Except Err String :=
  match l with
  | [v] => .ok (pyQuote v)
  | _ => .error (.valueError ("multiple values: " ++ pyReprList l))

/-- Model of `serialize_option`: more than one value raises
`ValueError('multiple values: …')`, one value renders as `Some("…")`,
zero values render as `None`. -/
def serialize_option (l : List String) : Except Err String :=
  if 1 < l.length then .error (.valueError ("multiple values: " ++ pyReprList l))
  else
    match l with
    | [v] => .ok ("Some(" ++ pyQuote v ++ ")")
    | _ => .ok "None"

/-- Model of `serialize_struct`: the struct name, an opening brace, then
one `field: value,` line per entry joined by newlines, and a closing brace. -/
def serialize_struct (name : String) (fields : List (String × String)) : String :=
  name ++ " \x7b\n"
    ++ String.intercalate "\n" (fields.map (fun f => f.1 ++ ": " ++ f.2 ++ ",")) ++ "\n\x7d"

/-- Evaluation of the field expressions of one struct literal, left to
right, propagating the first raised error — as Python evaluates the values
of the dict literal passed to `serialize_struct`. -/
def serializeFields : List (String × Except Err String) → Except Err (List (String × String))
  | [] => .ok []
  | (_, .error e) :: _ => .error e
  | (k, .ok v) :: rest => (serializeFields rest).map (fun fs => (k, v) :: fs)

/-- Model of the extlang prefix expression
`serialize_mandatory(record['Prefix'])[:-1] + '-"'`: serialize the
mandatory value, drop the final character (the closing quote), and append
`-"`. -/
def extlangPrefixField (l : List String) : Except Err String :=
  match serialize_mandatory l with
  | .error e => .error e
  | .ok s => .ok (pySliceDropLast s ++ "-\"")

/-- Model of the variant prefixes expression
quoting the space-join of the suffixed truthy Prefix values: each
truthy (nonempty) value suffixed with `-`, joined with single spaces,
quoted. -/
def variantPrefixes (l : List String) : String :=
  pyQuote (String.intercalate " " ((l.filter (fun p => p ≠ "")).map (fun p => p ++ "-")))

/-- Outcome of classifying one raw record: a file-date metadata record, a
serialized entry destined for a named table, or an unexpected record that
is only logged. -/
inductive RecordResult where
  | fileDate (d : String)
  | entry (bucket : String) (s : String)
  | unexpected (r : RawRecord)
deriving DecidableEq

/-- The seven recognized values of the `Type` field. -/
def knownKinds : List String :=
  ["language", "extlang", "script", "region", "variant", "grandfathered", "redundant"]

/-- Model of the classification / serialization of one record in the main
loop: dispatch on `record['Type'][0]` to the seven `elif` branches, each of
which builds one struct literal; a record without `Type` is `File-Date`
metadata or unexpected; an unrecognized `Type` value is unexpected. -/
def classifyRecord (r : RawRecord) : Except Err RecordResult :=
  if hasField r "Type" then
    match getVals r "Type" with
    | [] => .error .indexError
    | ty :: _ =>
      if ty = "language" then
        (serializeFields
          [("subtag", serialize_mandatory (getVals r "Subtag")),
           ("preferred_value", serialize_option (getVals r "Preferred-Value")),
           ("suppress_script", serialize_option (getVals r "Suppress-Script")),
           ("macrolanguage", serialize_option (getVals r "Macrolanguage"))]).map
          (fun fs => .entry "LANGUAGES" (serialize_struct "LanguageRecord" fs))
      else if ty = "extlang" then
        (serializeFields
          [("subtag", serialize_mandatory (getVals r "Subtag")),
           ("preferred_value", serialize_mandatory (getVals r "Preferred-Value")),
           ("prefix", extlangPrefixField (getVals r "Prefix"))]).map
          (fun fs => .entry "EXTLANGS" (serialize_struct "ExtlangRecord" fs))
      else if ty = "script" then
        (serializeFields
          [("subtag", serialize_mandatory (getVals r "Subtag")),
           ("preferred_value", serialize_option (getVals r "Preferred-Value"))]).map
          (fun fs => .entry "SCRIPTS" (serialize_struct "ScriptRecord" fs))
      else if ty = "region" then
        (serializeFields
          [("subtag", serialize_mandatory (getVals r "Subtag")),
           ("preferred_value", serialize_option (getVals r "Preferred-Value"))]).map
          (fun fs => .entry "REGIONS" (serialize_struct "RegionRecord" fs))
      else if ty = "variant" then
        (serializeFields
          [("subtag", serialize_mandatory (getVals r "Subtag")),
           ("preferred_value", serialize_option (getVals r "Preferred-Value")),
           ("prefixes", Except.ok (variantPrefixes (getVals r "Prefix")))]).map
          (fun fs => .entry "VARIANTS" (serialize_struct "VariantRecord" fs))
      else if ty = "grandfathered" then
        (serializeFields
          [("tag", serialize_mandatory (getVals r "Tag")),
           ("preferred_value", serialize_option (getVals r "Preferred-Value"))]).map
          (fun fs => .entry "GRANDFATHEREDS" (serialize_struct "GrandfatheredRecord" fs))
      else if ty = "redundant" then
        (serializeFields
          [("tag", serialize_mandatory (getVals r "Tag")),
           ("preferred_value", serialize_option (getVals r "Preferred-Value"))]).map
          (fun fs => .entry "REDUNDANTS" (serialize_struct "RedundantRecord" fs))
      else .ok (.unexpected r)
  else if hasField r "File-Date" then
    match getVals r "File-Date" with
    | [] => .error .indexError
    | d :: _ => .ok (.fileDate d)
  else .ok (.unexpected r)

/-- Accumulator of the main loop: the `file_date` variable, the
insertion-ordered `values` buckets, and the sequence of records reported by
`print('Unexpected record: …')`. -/
structure MainState where
  fileDate : Option String
  buckets : List (String × List String)
  log : List RawRecord
deriving DecidableEq

/-- Initial accumulator: `file_date = None`, `values = defaultdict(list)`. -/
def initMain : MainState := ⟨none, [], []⟩

/-- Model of `values[k].append(v)` on the insertion-ordered bucket map. -/
def bucketAppend : List (String × List String) → String → String → List (String × List String)
  | [], k, v => [(k, [v])]
  | (k', vs) :: rest, k, v =>
    if k' = k then (k', vs ++ [v]) :: rest else (k', vs) :: bucketAppend rest k v

/-- Effect of one classified record on the accumulator. -/
def applyResult (st : MainState) : RecordResult → MainState
  | .fileDate d => { st with fileDate := some d }
  | .entry k s => { st with buckets := bucketAppend st.buckets k s }
  | .unexpected r => { st with log := st.log ++ [r] }

/-- One iteration of the main loop on one raw record. -/
def mainStep (st : MainState) (r : RawRecord) : Except Err MainState :=
  match classifyRecord r with
  | .error e => .error e
  | .ok res => .ok (applyResult st res)

/-- The main classification loop over a record sequence from a given
accumulator state. -/
def processFrom (st : MainState) : List RawRecord → Except Err MainState
  | [] => .ok st
  | r :: rs =>
    match mainStep st r with
    | .error e => .error e
    | .ok st' => processFrom st' rs

/-- The main classification loop from the initial accumulator. -/
def processRecords (recs : List RawRecord) : Except Err MainState :=
  processFrom initMain recs

/-- Ascending lexicographic order on strings by code point, over the
character lists: the order Python's `list.sort()` uses on strings. -/
def strLe (a b : String) : Prop := ¬ List.lt b.data a.data

/-- Decision procedure for `strLe`, from the structural decidability of the
lexicographic order, so that the sort evaluates on concrete inputs. -/
def strLeDec : DecidableRel strLe := fun a b =>
  @instDecidableNot _ (List.hasDecidableLt b.data a.data)

/-- Model of `v.sort()`: sort the serialized entries of one bucket in
ascending lexicographic order of the rendered text. -/
def pySort (l : List String) : List String :=
  @List.insertionSort String strLe strLeDec l

/-- The `struct_definitions` constant written once at the top of the output
artifact. -/
def structDefinitions : String :=
  "\npub struct LanguageRecord \x7b\n    pub subtag: &\x27static str,\n"
    ++ "    pub preferred_value: Option<&\x27static str>,\n"
    ++ "    pub suppress_script: Option<&\x27static str>,\n"
    ++ "    pub macrolanguage: Option<&\x27static str>\n\x7d\n\n"
    ++ "pub struct ExtlangRecord \x7b\n    pub subtag: &\x27static str,\n"
    ++ "    pub preferred_value: &\x27static str,\n"
    ++ "    pub prefix: &\x27static str\n\x7d\n\n"
    ++ "pub struct ScriptRecord \x7b\n    pub subtag: &\x27static str,\n"
    ++ "    pub preferred_value: Option<&\x27static str>\n\x7d\n\n"
    ++ "pub struct RegionRecord \x7b\n    pub subtag: &\x27static str,\n"
    ++ "    pub preferred_value: Option<&\x27static str>\n\x7d\n\n"
    ++ "pub struct VariantRecord \x7b\n    pub subtag: &\x27static str,\n"
    ++ "    pub preferred_value: Option<&\x27static str>,\n"
    ++ "    pub prefixes: &\x27static str\n\x7d\n\n"
    ++ "pub struct GrandfatheredRecord \x7b\n    pub tag: &\x27static str,\n"
    ++ "    pub preferred_value: Option<&\x27static str>,\n\x7d\n\n"
    ++ "pub struct RedundantRecord \x7b\n    pub tag: &\x27static str,\n"
    ++ "    pub preferred_value: Option<&\x27static str>,\n\x7d\n\n\n"

/-- Rendering of one static array once its element list is known to be
nonempty: the `pub const` header with name, element type and count, then the
comma-newline-joined elements between square brackets. -/
def renderArray (name : String) (elements : List String) : String :=
  "pub const " ++ name ++ ": [" ++ firstWord (elements.headD "") ++ "; "
    ++ toString elements.length ++ "] = [\n"
    ++ String.intercalate ",\n" elements ++ "\n];\n\n"

/-- Model of `serialize_static_array`: `elements[0]` raises `IndexError` on
an empty list, otherwise the array literal is rendered. -/
def serialize_static_array (name : String) (elements : List String) : Except Err String :=
  match elements with
  | [] => .error .indexError
  | _ :: _ => .ok (renderArray name elements)

/-- Rendering of every bucket, in insertion order, each sorted in place
first (`for k, v in values.items(): v.sort(); …`). -/
def renderArrays : List (String × List String) → Except Err (List String)
  | [] => .ok []
  | b :: bs =>
    match serialize_static_array b.1 (pySort b.2) with
    | .error e => .error e
    | .ok a =>
      match renderArrays bs with
      | .error e => .error e
      | .ok rest => .ok (a :: rest)

/-- Model of the output phase: the shared struct declarations once,
followed by every rendered array. -/
def renderOutput (buckets : List (String × List String)) : Except Err String :=
  match renderArrays buckets with
  | .error e => .error e
  | .ok arrays => .ok (structDefinitions ++ String.join arrays)

/-- Scanner plus classifier: the accumulator state reached by a run. -/
def pipelineState (lines : List String) : Except Err MainState :=
  match parseRegistry lines with
  | .error e => .error e
  | .ok recs => processRecords recs

/-- The whole pipeline: the artifact text written for an input line stream,
or the error that aborted the run before anything was written. -/
def run (lines : List String) : Except Err String :=
  match pipelineState lines with
  | .error e => .error e
  | .ok st => renderOutput st.buckets

/-- The emitted tables in structured form: bucket name with its sorted
element list, exactly as they are rendered into the artifact. -/
def emittedTables (lines : List String) : Except Err (List (String × List String)) :=
  match pipelineState lines with
  | .error e => .error e
  | .ok st => .ok (st.buckets.map (fun b => (b.1, pySort b.2)))

/-- Projection of a pipeline result onto the buckets. -/
def bucketsOf (x : Except Err MainState) : Except Err (List (String × List String)) :=
  x.map (fun st => st.buckets)

/-- Whether an `Except` result is a success. -/
def isOkE {α : Type} : Except Err α → Bool
  | .ok _ => true
  | .error _ => false

/-- Whether an `Except` result is an aborting error. -/
def isErrE {α : Type} : Except Err α → Bool
  | .ok _ => false
  | .error _ => true

/-- The seven table names the script can emit. -/
def bucketNames : List String :=
  ["LANGUAGES", "EXTLANGS", "SCRIPTS", "REGIONS", "VARIANTS", "GRANDFATHEREDS", "REDUNDANTS"]

/-- The mandatory-single and optional-single fields of each recognized
record kind, as the seven branches of the main loop serialize them. -/
def kindFields : String → Option (List String × List String)
  | "language" => some (["Subtag"], ["Preferred-Value", "Suppress-Script", "Macrolanguage"])
  | "extlang" => some (["Subtag", "Preferred-Value", "Prefix"], [])
  | "script" => some (["Subtag"], ["Preferred-Value"])
  | "region" => some (["Subtag"], ["Preferred-Value"])
  | "variant" => some (["Subtag"], ["Preferred-Value"])
  | "grandfathered" => some (["Tag"], ["Preferred-Value"])
  | "redundant" => some (["Tag"], ["Preferred-Value"])
  | _ => none

/-- A recognized record with a field-cardinality violation: a
mandatory-single field with zero or several values, or a singular field
with several values. -/
def badRecord (r : RawRecord) : Bool :=
  match getVals r "Type" with
  | [] => false
  | ty :: _ =>
    match kindFields ty with
    | none => false
    | some (m, o) =>
      m.any (fun f => (getVals r f).length ≠ 1) || o.any (fun f => 1 < (getVals r f).length)

/-- Whether `pat` occurs as a contiguous subsequence of `hay`. -/
def containsSeq (hay pat : List Char) : Bool :=
  match hay with
  | [] => pat.isEmpty
  | _ :: t => pat.isPrefixOf hay || containsSeq t pat

/-- Whether a successful run's artifact contains the given text. -/
def okContains (x : Except Err String) (pat : String) : Bool :=
  match x with
  | .ok s => containsSeq s.data pat.data
  | .error _ => false

theorem strext : ∀ {s t : String}, s.data = t.data → s = t
  | ⟨_⟩, ⟨_⟩, h => congrArg String.mk h

theorem pySliceDropLast_data (s : String) : (pySliceDropLast s).data = s.data.dropLast := rfl

theorem listLt_asymm {x y : List Char} (h : List.lt x y) : ¬ List.lt y x := by
  induction h with
  | nil b bs =>
    intro h2
    cases h2
  | head as bs hab =>
    intro h2
    cases h2 with
    | head _ _ hba => exact (asymm hba) hab
    | tail h1 h2' _ => exact h2' hab
  | tail hab hba _ ih =>
    intro h2
    cases h2 with
    | head _ _ hba' => exact hba hba'
    | tail _ _ h3 => exact ih h3

theorem listLt_trans {x y z : List Char} (h1 : List.lt x y) (h2 : List.lt y z) :
    List.lt x z := by
  induction h1 generalizing z with
  | nil b bs =>
    cases h2 with
    | head _ _ _ => exact List.lt.nil _ _
    | tail _ _ _ => exact List.lt.nil _ _
  | head as bs hab =>
    cases h2 with
    | head _ _ hbc => exact List.lt.head _ _ (lt_trans hab hbc)
    | tail hbc hcb h3 =>
      have heq := le_antisymm (le_of_not_lt hbc) (le_of_not_lt hcb)
      exact heq ▸ List.lt.head _ _ hab
  | tail hab hba h3 ih =>
    have heq := le_antisymm (le_of_not_lt hba) (le_of_not_lt hab)
    cases h2 with
    | head _ _ hbc => exact List.lt.head _ _ (heq ▸ hbc)
    | tail hbc hcb h4 =>
      have heq2 := le_antisymm (le_of_not_lt hcb) (le_of_not_lt hbc)
      exact List.lt.tail (fun hx => hab (heq2 ▸ hx)) (fun hx => hba (heq2 ▸ hx)) (ih h4)

theorem listLt_connex : ∀ {x y : List Char}, ¬ List.lt x y → ¬ List.lt y x → x = y
  | [], [], _, _ => rfl
  | [], b :: bs, h1, _ => absurd (List.lt.nil b bs) h1
  | a :: as, [], _, h2 => absurd (List.lt.nil a as) h2
  | a :: as, b :: bs, h1, h2 => by
    by_cases hab : a < b
    · exact absurd (List.lt.head as bs hab) h1
    · by_cases hba : b < a
      · exact absurd (List.lt.head bs as hba) h2
      · have heq : a = b := le_antisymm (le_of_not_lt hba) (le_of_not_lt hab)
        have htl : as = bs :=
          listLt_connex (fun h => h1 (List.lt.tail hab hba h))
            (fun h => h2 (List.lt.tail hba hab h))
        rw [heq, htl]

theorem strLeTotal : IsTotal String strLe :=
  ⟨fun a b => by
    by_cases h : List.lt b.data a.data
    · exact Or.inr (listLt_asymm h)
    · exact Or.inl h⟩

theorem strLeTrans : IsTrans String strLe :=
  ⟨fun a b c hab hbc => by
    intro hca
    by_cases h : List.lt c.data b.data
    · exact hbc h
    · by_cases h2 : List.lt b.data c.data
      · exact hab (listLt_trans h2 hca)
      · have heq : b.data = c.data := listLt_connex h2 h
        rw [← heq] at hca
        exact hab hca⟩

theorem pySort_sorted (l : List String) : List.Sorted strLe (pySort l) :=
  @List.sorted_insertionSort String strLe strLeDec strLeTotal strLeTrans l

theorem strLe_iff_le (a b : String) : strLe a b ↔ a ≤ b := by
  rw [String.le_iff_toList_le, ← not_lt]
  unfold strLe
  rw [List.lt_iff_lex_lt]
  exact Iff.rfl

/-- Claim C1, counterexample: for the registry Prefix value `zh-`, which
already ends with a separator, the code renders the extlang prefix field as
`"zh--"` — two trailing separators before the closing quote, because the
slice `[:-1]` strips the closing quote of the serialized value, not a
separator, and a separator is then appended unconditionally. -/
theorem c1_counterexample :
    extlangPrefixField ["zh-"] = Except.ok "\"zh--\""
      ∧ List.isSuffixOf ['-', '-', '"'] "\"zh--\"".data = true := ⟨rfl, rfl⟩

/-- Claim C1 (amended): for every extlang record, the serialized prefix
field is the quoted registry Prefix value with one separator appended
unconditionally; nothing is stripped from the value, so it ends with
exactly one trailing separator only when the registry value does not
already end with one. -/
theorem c1_extlang_prefix_always_appended (v : String) :
    extlangPrefixField [v] = Except.ok (pyQuote (v ++ "-")) := by
  show Except.ok (pySliceDropLast (pyQuote v) ++ "-\"") = Except.ok (pyQuote (v ++ "-"))
  congr 1
  apply strext
  simp only [pyQuote, pySliceDropLast_data, String.data_append,
    show ("\"" : String).data = ['"'] from rfl,
    show ("-\"" : String).data = ['-', '"'] from rfl,
    show ("-" : String).data = ['-'] from rfl,
    List.append_assoc]
  rw [← List.append_assoc, List.dropLast_concat]
  simp [List.append_assoc]

/-- Claim C2, counterexample: for a variant record with Prefix values `a`
and `a-b`, the rendered field is `"a- a-b-"` — the two suffixed values are
joined with a single space, not concatenated to `"a-a-b-"` as the claim
states. -/
theorem c2_counterexample :
    variantPrefixes ["a", "a-b"] = "\"a- a-b-\""
      ∧ ("\"a- a-b-\"" : String) ≠ "\"" ++ ("a-" ++ "a-b-") ++ "\"" := by
  exact ⟨rfl, by decide⟩

/-- Claim C2 (amended): for every variant record, the repeated Prefix
field renders as a single quoted string in which each nonempty original
value, suffixed with a trailing separator, is joined to the next with a
single space, in original appearance order; zero values give the empty
string, and empty values are dropped. -/
theorem c2_variant_prefixes_space_joined (l : List String) (h : ∀ x ∈ l, x ≠ "") :
    variantPrefixes l = pyQuote (String.intercalate " " (l.map (fun p => p ++ "-"))) := by
  unfold variantPrefixes
  have hf : l.filter (fun p => p ≠ "") = l := by
    rw [List.filter_eq_self]
    intro a ha
    simpa using h a ha
  rw [hf]

theorem c2_witness :
    variantPrefixes ["a", "a-b"]
      = pyQuote (String.intercalate " " (["a", "a-b"].map (fun p => p ++ "-"))) :=
  c2_variant_prefixes_space_joined ["a", "a-b"] (by decide)

/-- Claim C5, counterexample: a language record with two `Subtag` values
aborts the run with `ValueError("multiple values: ['aa', 'bb']")`; the
error message carries only the offending values — it contains neither the
field name `Subtag` nor the record kind `language`. -/
theorem c5_counterexample :
    run ["Type: language", "Subtag: aa", "Subtag: bb"]
        = Except.error (Err.valueError "multiple values: [\x27aa\x27, \x27bb\x27]")
      ∧ containsSeq "multiple values: [\x27aa\x27, \x27bb\x27]".data "Subtag".data = false
      ∧ containsSeq "multiple values: [\x27aa\x27, \x27bb\x27]".data "language".data = false :=
  ⟨rfl, rfl, rfl⟩

/-- Claim C5 (amended): every fatal field-cardinality error is raised as a
`ValueError` whose message is exactly `multiple values: ` followed by the
offending list of values; the name of the violated field and the identity
of the offending record do not appear in the error. -/
theorem c5_error_message_only_values (l l' : List String)
    (h : l.length ≠ 1) (h' : 1 < l'.length) :
    serialize_mandatory l = Except.error (Err.valueError ("multiple values: " ++ pyReprList l))
      ∧ serialize_option l'
        = Except.error (Err.valueError ("multiple values: " ++ pyReprList l')) := by
  constructor
  · cases l with
    | nil => rfl
    | cons a l2 =>
      cases l2 with
      | nil => exact absurd rfl h
      | cons b l3 => rfl
  · unfold serialize_option
    rw [if_pos h']

theorem c5_witness :
    (serialize_mandatory ["aa", "bb"]
        = Except.error (Err.valueError ("multiple values: " ++ pyReprList ["aa", "bb"])))
      ∧ serialize_option ["x", "y"]
        = Except.error (Err.valueError ("multiple values: " ++ pyReprList ["x", "y"])) :=
  c5_error_message_only_values ["aa", "bb"] ["x", "y"] (by decide) (by decide)

/-- Claim C8: the pipeline is deterministic — the artifact is a pure
function of the input line stream, so byte-identical inputs produce
byte-identical outputs. -/
theorem c8_deterministic (l1 l2 : List String) (h : l1 = l2) : run l1 = run l2 := by
  rw [h]

theorem c8_witness : run ["%%"] = run ["%%"] :=
  c8_deterministic ["%%"] ["%%"] rfl

theorem serialize_mandatory_ok_length :
    ∀ {l : List String} {s : String}, serialize_mandatory l = .ok s → l.length = 1
  | [_], _, _ => rfl
  | [], _, h => by simp [serialize_mandatory] at h
  | _ :: _ :: _, _, h => by simp [serialize_mandatory] at h

theorem serialize_option_ok_length {l : List String} {s : String}
    (h : serialize_option l = .ok s) : ¬ 1 < l.length := by
  intro hlen
  unfold serialize_option at h
  rw [if_pos hlen] at h
  exact Except.noConfusion h

theorem extlangPrefixField_ok_length {l : List String} {s : String}
    (h : extlangPrefixField l = .ok s) : l.length = 1 := by
  unfold extlangPrefixField at h
  cases hm : serialize_mandatory l with
  | error e => rw [hm] at h; exact Except.noConfusion h
  | ok v => exact serialize_mandatory_ok_length hm

theorem serializeFields_ok_mem {fps : List (String × Except Err String)}
    {fs : List (String × String)} (h : serializeFields fps = .ok fs) :
    ∀ p ∈ fps, ∃ v, p.2 = .ok v := by
  induction fps generalizing fs with
  | nil =>
    intro p hp
    cases hp
  | cons q rest ih =>
    obtain ⟨k, e⟩ := q
    cases e with
    | error er => simp [serializeFields] at h
    | ok v =>
      intro p hp
      cases hp with
      | head => exact ⟨v, rfl⟩
      | tail _ hp' =>
        simp only [serializeFields] at h
        cases hr : serializeFields rest with
        | error e2 => rw [hr] at h; simp [Except.map] at h
        | ok fs2 => exact ih hr p hp'

theorem hasField_of_getVals {r : RawRecord} {f v : String} {vs : List String}
    (h : getVals r f = v :: vs) : hasField r f = true := by
  unfold getVals at h
  unfold hasField
  cases hl : lookupVals r (some f) with
  | none => rw [hl] at h; simp at h
  | some _ => rfl

theorem kindFields_eq_none {ty : String} (h1 : ty ≠ "language") (h2 : ty ≠ "extlang")
    (h3 : ty ≠ "script") (h4 : ty ≠ "region") (h5 : ty ≠ "variant")
    (h6 : ty ≠ "grandfathered") (h7 : ty ≠ "redundant") : kindFields ty = none := by
  unfold kindFields
  split
  · exact absurd rfl h1
  · exact absurd rfl h2
  · exact absurd rfl h3
  · exact absurd rfl h4
  · exact absurd rfl h5
  · exact absurd rfl h6
  · exact absurd rfl h7
  · rfl

theorem classify_ok_not_bad {r : RawRecord} {res : RecordResult}
    (h : classifyRecord r = .ok res) : badRecord r = false := by
  unfold badRecord
  cases hty : getVals r "Type" with
  | nil => rfl
  | cons ty tys =>
    have hhf : hasField r "Type" = true := hasField_of_getVals hty
    unfold classifyRecord at h
    rw [if_pos hhf] at h
    rw [hty] at h
    simp only [] at h
    by_cases h1 : ty = "language"
    · subst h1
      simp only [] at h
      rw [if_true] at h
      cases hsf : serializeFields
          [("subtag", serialize_mandatory (getVals r "Subtag")),
("preferred_value", serialize_option (getVals r "Preferred-Value")),
("suppress_script", serialize_option (getVals r "Suppress-Script")),
("macrolanguage", serialize_option (getVals r "Macrolanguage"))] with
      | error e => rw [hsf] at h; simp [Except.map] at h
      | ok fs =>
        obtain ⟨w1, hw1⟩ := serializeFields_ok_mem hsf
          ("subtag", serialize_mandatory (getVals r "Subtag")) (by simp)
        obtain ⟨w2, hw2⟩ := serializeFields_ok_mem hsf
          ("preferred_value", serialize_option (getVals r "Preferred-Value")) (by simp)
        obtain ⟨w3, hw3⟩ := serializeFields_ok_mem hsf
          ("suppress_script", serialize_option (getVals r "Suppress-Script")) (by simp)
        obtain ⟨w4, hw4⟩ := serializeFields_ok_mem hsf
          ("macrolanguage", serialize_option (getVals r "Macrolanguage")) (by simp)
        simp [kindFields, serialize_mandatory_ok_length hw1, serialize_option_ok_length hw2, serialize_option_ok_length hw3, serialize_option_ok_length hw4]
    · rw [if_neg h1] at h
      by_cases h2 : ty = "extlang"
      · subst h2
        simp only [] at h
        rw [if_true] at h
        cases hsf : serializeFields
            [("subtag", serialize_mandatory (getVals r "Subtag")),
("preferred_value", serialize_mandatory (getVals r "Preferred-Value")),
("prefix", extlangPrefixField (getVals r "Prefix"))] with
        | error e => rw [hsf] at h; simp [Except.map] at h
        | ok fs =>
          obtain ⟨w1, hw1⟩ := serializeFields_ok_mem hsf
            ("subtag", serialize_mandatory (getVals r "Subtag")) (by simp)
          obtain ⟨w2, hw2⟩ := serializeFields_ok_mem hsf
            ("preferred_value", serialize_mandatory (getVals r "Preferred-Value")) (by simp)
          obtain ⟨w3, hw3⟩ := serializeFields_ok_mem hsf
            ("prefix", extlangPrefixField (getVals r "Prefix")) (by simp)
          simp [kindFields, serialize_mandatory_ok_length hw1, serialize_mandatory_ok_length hw2, extlangPrefixField_ok_length hw3]
      · rw [if_neg h2] at h
        by_cases h3 : ty = "script"
        · subst h3
          simp only [] at h
          rw [if_true] at h
          cases hsf : serializeFields
              [("subtag", serialize_mandatory (getVals r "Subtag")),
("preferred_value", serialize_option (getVals r "Preferred-Value"))] with
          | error e => rw [hsf] at h; simp [Except.map] at h
          | ok fs =>
            obtain ⟨w1, hw1⟩ := serializeFields_ok_mem hsf
              ("subtag", serialize_mandatory (getVals r "Subtag")) (by simp)
            obtain ⟨w2, hw2⟩ := serializeFields_ok_mem hsf
              ("preferred_value", serialize_option (getVals r "Preferred-Value")) (by simp)
            simp [kindFields, serialize_mandatory_ok_length hw1, serialize_option_ok_length hw2]
        · rw [if_neg h3] at h
          by_cases h4 : ty = "region"
          · subst h4
            simp only [] at h
            rw [if_true] at h
            cases hsf : serializeFields
                [("subtag", serialize_mandatory (getVals r "Subtag")),
("preferred_value", serialize_option (getVals r "Preferred-Value"))] with
            | error e => rw [hsf] at h; simp [Except.map] at h
            | ok fs =>
              obtain ⟨w1, hw1⟩ := serializeFields_ok_mem hsf
                ("subtag", serialize_mandatory (getVals r "Subtag")) (by simp)
              obtain ⟨w2, hw2⟩ := serializeFields_ok_mem hsf
                ("preferred_value", serialize_option (getVals r "Preferred-Value")) (by simp)
              simp [kindFields, serialize_mandatory_ok_length hw1, serialize_option_ok_length hw2]
          · rw [if_neg h4] at h
            by_cases h5 : ty = "variant"
            · subst h5
              simp only [] at h
              rw [if_true] at h
              cases hsf : serializeFields
                  [("subtag", serialize_mandatory (getVals r "Subtag")),
("preferred_value", serialize_option (getVals r "Preferred-Value")),
("prefixes", Except.ok (variantPrefixes (getVals r "Prefix")))] with
              | error e => rw [hsf] at h; simp [Except.map] at h
              | ok fs =>
                obtain ⟨w1, hw1⟩ := serializeFields_ok_mem hsf
                  ("subtag", serialize_mandatory (getVals r "Subtag")) (by simp)
                obtain ⟨w2, hw2⟩ := serializeFields_ok_mem hsf
                  ("preferred_value", serialize_option (getVals r "Preferred-Value")) (by simp)
                simp [kindFields, serialize_mandatory_ok_length hw1, serialize_option_ok_length hw2]
            · rw [if_neg h5] at h
              by_cases h6 : ty = "grandfathered"
              · subst h6
                simp only [] at h
                rw [if_true] at h
                cases hsf : serializeFields
                    [("tag", serialize_mandatory (getVals r "Tag")),
("preferred_value", serialize_option (getVals r "Preferred-Value"))] with
                | error e => rw [hsf] at h; simp [Except.map] at h
                | ok fs =>
                  obtain ⟨w1, hw1⟩ := serializeFields_ok_mem hsf
                    ("tag", serialize_mandatory (getVals r "Tag")) (by simp)
                  obtain ⟨w2, hw2⟩ := serializeFields_ok_mem hsf
                    ("preferred_value", serialize_option (getVals r "Preferred-Value")) (by simp)
                  simp [kindFields, serialize_mandatory_ok_length hw1, serialize_option_ok_length hw2]
              · rw [if_neg h6] at h
                by_cases h7 : ty = "redundant"
                · subst h7
                  simp only [] at h
                  rw [if_true] at h
                  cases hsf : serializeFields
                      [("tag", serialize_mandatory (getVals r "Tag")),
("preferred_value", serialize_option (getVals r "Preferred-Value"))] with
                  | error e => rw [hsf] at h; simp [Except.map] at h
                  | ok fs =>
                    obtain ⟨w1, hw1⟩ := serializeFields_ok_mem hsf
                      ("tag", serialize_mandatory (getVals r "Tag")) (by simp)
                    obtain ⟨w2, hw2⟩ := serializeFields_ok_mem hsf
                      ("preferred_value", serialize_option (getVals r "Preferred-Value")) (by simp)
                    simp [kindFields, serialize_mandatory_ok_length hw1, serialize_option_ok_length hw2]
                · rw [if_neg h7] at h
                  simp [kindFields_eq_none h1 h2 h3 h4 h5 h6 h7]

theorem processFrom_ok_each {recs : List RawRecord} {st0 st : MainState}
    (h : processFrom st0 recs = .ok st) : ∀ r ∈ recs, ∃ res, classifyRecord r = .ok res := by
  induction recs generalizing st0 with
  | nil =>
    intro r hr
    cases hr
  | cons a rs ih =>
    intro r hr
    simp only [processFrom, mainStep] at h
    cases hc : classifyRecord a with
    | error e => rw [hc] at h; exact Except.noConfusion h
    | ok res =>
      rw [hc] at h
      cases hr with
      | head => exact ⟨res, hc⟩
      | tail _ hr' => exact ih h r hr'

/-- Claim C4: when some recognized record has a mandatory-single field with
zero or several values, or a singular field with several values, the run
raises a fatal error; the `Except.error` result means it aborts before any
output is produced, since the artifact exists only in the `Except.ok`
case. -/
theorem c4_cardinality_violation_aborts (lines : List String) (recs : List RawRecord)
    (r : RawRecord) (h1 : parseRegistry lines = .ok recs) (h2 : r ∈ recs)
    (h3 : badRecord r = true) : isErrE (run lines) = true := by
  unfold run pipelineState
  rw [h1]
  simp only []
  cases hp : processRecords recs with
  | error e => rfl
  | ok st =>
    obtain ⟨res, hres⟩ := processFrom_ok_each hp r h2
    rw [classify_ok_not_bad hres] at h3
    exact Bool.noConfusion h3

theorem c4_witness :
    isErrE (run ["Type: extlang", "Subtag: aao"]) = true :=
  c4_cardinality_violation_aborts ["Type: extlang", "Subtag: aao"]
    [[(some "Type", ["extlang"]), (some "Subtag", ["aao"])]]
    [(some "Type", ["extlang"]), (some "Subtag", ["aao"])]
    rfl (by simp) (by decide)

/-- Claim C3: every emitted table lists its entries in ascending
lexicographic order of their canonical serialized textual representation —
the sort key is the rendered text of each record. -/
theorem c3_tables_sorted (lines : List String) (ts : List (String × List String))
    (name : String) (elems : List String) (h : emittedTables lines = .ok ts)
    (hmem : (name, elems) ∈ ts) :
    List.Sorted (fun a b : String => a ≤ b) elems := by
  unfold emittedTables at h
  cases hp : pipelineState lines with
  | error e => rw [hp] at h; exact Except.noConfusion h
  | ok st =>
    rw [hp] at h
    simp only [] at h
    injection h with h
    rw [← h] at hmem
    obtain ⟨b, hb, heq⟩ := List.mem_map.mp hmem
    have h2 : pySort b.2 = elems := congrArg Prod.snd heq
    rw [← h2]
    exact List.Pairwise.imp (fun hab => (strLe_iff_le _ _).mp hab) (pySort_sorted b.2)

theorem c3_witness :
    List.Sorted (fun a b : String => a ≤ b)
      ["LanguageRecord \x7b\nsubtag: \"aa\",\npreferred_value: None,\nsuppress_script: None,\nmacrolanguage: None,\n\x7d",
       "LanguageRecord \x7b\nsubtag: \"ab\",\npreferred_value: None,\nsuppress_script: None,\nmacrolanguage: None,\n\x7d"] :=
  c3_tables_sorted ["Type: language", "Subtag: ab", "%%", "Type: language", "Subtag: aa"]
    [("LANGUAGES",
      ["LanguageRecord \x7b\nsubtag: \"aa\",\npreferred_value: None,\nsuppress_script: None,\nmacrolanguage: None,\n\x7d",
       "LanguageRecord \x7b\nsubtag: \"ab\",\npreferred_value: None,\nsuppress_script: None,\nmacrolanguage: None,\n\x7d"])]
    "LANGUAGES"
    ["LanguageRecord \x7b\nsubtag: \"aa\",\npreferred_value: None,\nsuppress_script: None,\nmacrolanguage: None,\n\x7d",
     "LanguageRecord \x7b\nsubtag: \"ab\",\npreferred_value: None,\nsuppress_script: None,\nmacrolanguage: None,\n\x7d"]
    rfl
    (by simp)

theorem classify_unknown {r : RawRecord} {ty : String} {tys : List String}
    (hty : getVals r "Type" = ty :: tys) (hur : ty ∉ knownKinds) :
    classifyRecord r = .ok (.unexpected r) := by
  simp only [knownKinds, List.mem_cons, List.not_mem_nil, or_false, not_or] at hur
  obtain ⟨n1, n2, n3, n4, n5, n6, n7⟩ := hur
  unfold classifyRecord
  rw [if_pos (hasField_of_getVals hty), hty]
  simp only []
  rw [if_neg n1, if_neg n2, if_neg n3, if_neg n4, if_neg n5, if_neg n6, if_neg n7]

theorem processFrom_buckets_congr {recs : List RawRecord} {st1 st2 : MainState}
    (h : st1.buckets = st2.buckets) :
    bucketsOf (processFrom st1 recs) = bucketsOf (processFrom st2 recs) := by
  induction recs generalizing st1 st2 with
  | nil => simp [processFrom, bucketsOf, Except.map, h]
  | cons a rs ih =>
    simp only [processFrom, mainStep]
    cases hc : classifyRecord a with
    | error e => rfl
    | ok res =>
      apply ih
      cases res with
      | fileDate d => simpa [applyResult] using h
      | entry k s => simp [applyResult, h]
      | unexpected r2 => simpa [applyResult] using h

theorem processFrom_log_mono {recs : List RawRecord} {st st' : MainState} {x : RawRecord}
    (h : processFrom st recs = .ok st') (hx : x ∈ st.log) : x ∈ st'.log := by
  induction recs generalizing st with
  | nil =>
    simp only [processFrom] at h
    injection h with h
    rw [← h]
    exact hx
  | cons a rs ih =>
    simp only [processFrom, mainStep] at h
    cases hc : classifyRecord a with
    | error e => rw [hc] at h; exact Except.noConfusion h
    | ok res =>
      rw [hc] at h
      refine ih h ?_
      cases res with
      | fileDate d => exact hx
      | entry k s => exact hx
      | unexpected r2 => simp [applyResult, hx]

theorem unexpected_skip_buckets {r : RawRecord} (hc : classifyRecord r = .ok (.unexpected r))
    (pre post : List RawRecord) :
    ∀ st : MainState, bucketsOf (processFrom st (pre ++ r :: post))
      = bucketsOf (processFrom st (pre ++ post)) := by
  induction pre with
  | nil =>
    intro st
    simp only [List.nil_append, processFrom, mainStep, hc]
    exact processFrom_buckets_congr rfl
  | cons a pre' ih =>
    intro st
    simp only [List.cons_append, processFrom, mainStep]
    cases hca : classifyRecord a with
    | error e => rfl
    | ok res => exact ih (applyResult st res)

theorem unexpected_skip_logged {r : RawRecord} (hc : classifyRecord r = .ok (.unexpected r))
    (pre post : List RawRecord) :
    ∀ st stm : MainState, processFrom st (pre ++ r :: post) = .ok stm → r ∈ stm.log := by
  induction pre with
  | nil =>
    intro st stm h
    simp only [List.nil_append, processFrom, mainStep, hc] at h
    exact processFrom_log_mono h (by simp [applyResult])
  | cons a pre' ih =>
    intro st stm h
    simp only [List.cons_append, processFrom, mainStep] at h
    cases hca : classifyRecord a with
    | error e => rw [hca] at h; exact Except.noConfusion h
    | ok res =>
      rw [hca] at h
      exact ih (applyResult st res) stm h

/-- Claim C6: a record whose `Type` value is none of the seven recognized
kinds is logged and skipped without aborting — the run produces exactly the
buckets it would produce without that record (including the same
success/failure outcome), and on success the record appears in the log of
unexpected records. -/
theorem c6_unrecognized_type_skipped (pre post : List RawRecord) (r : RawRecord)
    (ty : String) (tys : List String) (hty : getVals r "Type" = ty :: tys)
    (hur : ty ∉ knownKinds) :
    bucketsOf (processRecords (pre ++ r :: post)) = bucketsOf (processRecords (pre ++ post))
      ∧ ∀ stm, processRecords (pre ++ r :: post) = .ok stm → r ∈ stm.log := by
  have hc := classify_unknown hty hur
  exact ⟨unexpected_skip_buckets hc pre post initMain,
    fun stm => unexpected_skip_logged hc pre post initMain stm⟩

theorem c6_witness :
    bucketsOf (processRecords ([] ++ [(some "Type", ["widget"])] :: []))
        = bucketsOf (processRecords ([] ++ []))
      ∧ ∀ stm, processRecords ([] ++ [(some "Type", ["widget"])] :: []) = .ok stm
          → [(some "Type", ["widget"])] ∈ stm.log :=
  c6_unrecognized_type_skipped [] [] [(some "Type", ["widget"])] "widget" [] rfl (by decide)

/-- Claim C10: a record separator following directly on another separator
(or opening the input) makes the scanner emit an empty raw record, and the
classifier treats that empty record — which has no `Type` and no
`File-Date` — as an unexpected record: it is logged, skipped, the run
continues, and it contributes nothing to any bucket. -/
theorem c10_empty_record_skipped (st : ScanState) (raw : String) (rest : List String)
    (h1 : pyStrip raw = "%%") (h2 : st.currentRecord = []) (rs : List RawRecord) :
    parseFrom st (raw :: rest) = (parseFrom st rest).map (List.cons ([] : RawRecord))
      ∧ classifyRecord [] = .ok (.unexpected [])
      ∧ bucketsOf (processRecords (([] : RawRecord) :: rs)) = bucketsOf (processRecords rs)
      ∧ ∀ stm, processRecords (([] : RawRecord) :: rs) = .ok stm
          → ([] : RawRecord) ∈ stm.log := by
  obtain ⟨cf, cr⟩ := st
  simp only [] at h2
  subst h2
  have hc : classifyRecord ([] : RawRecord) = .ok (.unexpected []) := rfl
  refine ⟨?_, rfl, ?_, ?_⟩
  · have hs : scanStep ⟨cf, []⟩ raw = .ok (⟨cf, []⟩, some []) := by
      simp [scanStep, h1]
    simp only [parseFrom, hs]
    cases hp : parseFrom ⟨cf, []⟩ rest with
    | error e => rfl
    | ok recs => rfl
  · exact unexpected_skip_buckets hc [] rs initMain
  · exact fun stm => unexpected_skip_logged hc [] rs initMain stm

theorem c10_witness :
    parseFrom initScan ["%%", "%%"]
        = (parseFrom initScan ["%%"]).map (List.cons ([] : RawRecord))
      ∧ classifyRecord [] = .ok (.unexpected [])
      ∧ bucketsOf (processRecords (([] : RawRecord) :: [])) = bucketsOf (processRecords [])
      ∧ ∀ stm, processRecords (([] : RawRecord) :: []) = .ok stm
          → ([] : RawRecord) ∈ stm.log :=
  c10_empty_record_skipped initScan "%%" ["%%"] rfl rfl []

theorem lookup_extendLast_self {r : RawRecord} {k : Option String} {vs : List String}
    (h : lookupVals r k = some vs) (ext : String) :
    lookupVals (extendLast r k ext) k = some (vs.dropLast ++ [vs.getLastD "" ++ ext]) := by
  induction r with
  | nil => simp [lookupVals] at h
  | cons e rest ih =>
    obtain ⟨k', vs'⟩ := e
    by_cases hk : k' = k
    · subst hk
      simp only [lookupVals, if_pos rfl] at h
      injection h with h
      subst h
      have hstep : extendLast ((k', vs') :: rest) k' ext
          = (k', vs'.dropLast ++ [vs'.getLastD "" ++ ext]) :: extendLast rest k' ext := by
        simp [extendLast]
      rw [hstep]
      simp [lookupVals]
    · have hstep : extendLast ((k', vs') :: rest) k ext = (k', vs') :: extendLast rest k ext := by
        simp [extendLast, hk]
      rw [hstep]
      simp only [lookupVals, if_neg hk] at h ⊢
      exact ih h

theorem lookup_extendLast_other (r : RawRecord) (k k2 : Option String) (ext : String)
    (hne : k2 ≠ k) : lookupVals (extendLast r k ext) k2 = lookupVals r k2 := by
  induction r with
  | nil => rfl
  | cons e rest ih =>
    obtain ⟨k', vs'⟩ := e
    by_cases hk : k' = k
    · subst hk
      have hstep : extendLast ((k', vs') :: rest) k' ext
          = (k', vs'.dropLast ++ [vs'.getLastD "" ++ ext]) :: extendLast rest k' ext := by
        simp [extendLast]
      rw [hstep]
      simp only [lookupVals]
      rw [if_neg (fun h => hne h.symm), if_neg (fun h => hne h.symm)]
      exact ih
    · have hstep : extendLast ((k', vs') :: rest) k ext = (k', vs') :: extendLast rest k ext := by
        simp [extendLast, hk]
      rw [hstep]
      simp only [lookupVals]
      by_cases hk2 : k' = k2
      · rw [if_pos hk2, if_pos hk2]
      · rw [if_neg hk2, if_neg hk2]
        exact ih

theorem keys_extendLast (r : RawRecord) (k : Option String) (ext : String) :
    (extendLast r k ext).map Prod.fst = r.map Prod.fst := by
  unfold extendLast
  rw [List.map_map]
  apply List.map_congr_left
  intro e _
  show (if e.1 = k then (e.1, e.2.dropLast ++ [e.2.getLastD "" ++ ext]) else e).1 = e.1
  split
  · rfl
  · rfl

/-- Claim C7: a stripped line that is neither the record separator nor a
field-pattern line is joined, preceded by exactly one space, onto the last
value of the most recently opened field of the current record (provided
that field has a value): the step emits no record, keeps the field cursor,
changes only the last value of the current field, touches no other field,
and opens no new field. -/
theorem c7_continuation_joined (st : ScanState) (raw : String) (vs : List String)
    (hsep : pyStrip raw ≠ "%%") (hm : fieldMatch (pyStrip raw).data = none)
    (hcur : lookupVals st.currentRecord st.currentField = some vs) (hne : vs ≠ []) :
    scanStep st raw
        = .ok ({ currentField := st.currentField,
                 currentRecord := extendLast st.currentRecord st.currentField
                   (" " ++ pyStrip raw) }, none)
      ∧ lookupVals (extendLast st.currentRecord st.currentField (" " ++ pyStrip raw))
            st.currentField
          = some (vs.dropLast ++ [vs.getLastD "" ++ (" " ++ pyStrip raw)])
      ∧ (∀ k2, k2 ≠ st.currentField →
          lookupVals (extendLast st.currentRecord st.currentField (" " ++ pyStrip raw)) k2
            = lookupVals st.currentRecord k2)
      ∧ (extendLast st.currentRecord st.currentField (" " ++ pyStrip raw)).map Prod.fst
          = st.currentRecord.map Prod.fst := by
  refine ⟨?_, lookup_extendLast_self hcur _,
    fun k2 h2 => lookup_extendLast_other _ _ _ _ h2, keys_extendLast _ _ _⟩
  cases vs with
  | nil => exact absurd rfl hne
  | cons v vs' =>
    simp only [scanStep]
    rw [if_neg hsep]
    rw [hm]
    simp only []
    rw [hcur]

theorem c7_witness :
    scanStep ⟨some "Description", [(some "Type", ["language"]), (some "Description", ["Sign"])]⟩
        "Language"
      = .ok ({ currentField := some "Description",
               currentRecord := extendLast
                 [(some "Type", ["language"]), (some "Description", ["Sign"])]
                 (some "Description") (" " ++ pyStrip "Language") }, none) :=
  (c7_continuation_joined
    ⟨some "Description", [(some "Type", ["language"]), (some "Description", ["Sign"])]⟩
    "Language" ["Sign"] (by decide) (by decide) rfl (by decide)).1

theorem classify_entry_name {r : RawRecord} {k s : String}
    (h : classifyRecord r = .ok (.entry k s)) : k ∈ bucketNames := by
  unfold classifyRecord at h
  by_cases hhf : hasField r "Type" = true
  case neg =>
    rw [if_neg hhf] at h
    by_cases hfd : hasField r "File-Date" = true
    · rw [if_pos hfd] at h
      cases hgv : getVals r "File-Date" with
      | nil => rw [hgv] at h; exact Except.noConfusion h
      | cons d ds => rw [hgv] at h; simp at h
    · rw [if_neg hfd] at h
      simp at h
  case pos =>
    rw [if_pos hhf] at h
    cases hgv : getVals r "Type" with
    | nil => rw [hgv] at h; exact Except.noConfusion h
    | cons ty tys =>
      rw [hgv] at h
      simp only [] at h
      by_cases h1 : ty = "language"
      · subst h1
        simp only [] at h
        rw [if_true] at h
        cases hsf : serializeFields _ with
        | error e => rw [hsf] at h; simp [Except.map] at h
        | ok fs =>
          rw [hsf] at h
          simp only [Except.map, Except.ok.injEq] at h
          obtain ⟨hk, -⟩ := RecordResult.entry.inj h
          rw [← hk]
          decide
      · rw [if_neg h1] at h
        by_cases h2 : ty = "extlang"
        · subst h2
          simp only [] at h
          rw [if_true] at h
          cases hsf : serializeFields _ with
          | error e => rw [hsf] at h; simp [Except.map] at h
          | ok fs =>
            rw [hsf] at h
            simp only [Except.map, Except.ok.injEq] at h
            obtain ⟨hk, -⟩ := RecordResult.entry.inj h
            rw [← hk]
            decide
        · rw [if_neg h2] at h
          by_cases h3 : ty = "script"
          · subst h3
            simp only [] at h
            rw [if_true] at h
            cases hsf : serializeFields _ with
            | error e => rw [hsf] at h; simp [Except.map] at h
            | ok fs =>
              rw [hsf] at h
              simp only [Except.map, Except.ok.injEq] at h
              obtain ⟨hk, -⟩ := RecordResult.entry.inj h
              rw [← hk]
              decide
          · rw [if_neg h3] at h
            by_cases h4 : ty = "region"
            · subst h4
              simp only [] at h
              rw [if_true] at h
              cases hsf : serializeFields _ with
              | error e => rw [hsf] at h; simp [Except.map] at h
              | ok fs =>
                rw [hsf] at h
                simp only [Except.map, Except.ok.injEq] at h
                obtain ⟨hk, -⟩ := RecordResult.entry.inj h
                rw [← hk]
                decide
            · rw [if_neg h4] at h
              by_cases h5 : ty = "variant"
              · subst h5
                simp only [] at h
                rw [if_true] at h
                cases hsf : serializeFields _ with
                | error e => rw [hsf] at h; simp [Except.map] at h
                | ok fs =>
                  rw [hsf] at h
                  simp only [Except.map, Except.ok.injEq] at h
                  obtain ⟨hk, -⟩ := RecordResult.entry.inj h
                  rw [← hk]
                  decide
              · rw [if_neg h5] at h
                by_cases h6 : ty = "grandfathered"
                · subst h6
                  simp only [] at h
                  rw [if_true] at h
                  cases hsf : serializeFields _ with
                  | error e => rw [hsf] at h; simp [Except.map] at h
                  | ok fs =>
                    rw [hsf] at h
                    simp only [Except.map, Except.ok.injEq] at h
                    obtain ⟨hk, -⟩ := RecordResult.entry.inj h
                    rw [← hk]
                    decide
                · rw [if_neg h6] at h
                  by_cases h7 : ty = "redundant"
                  · subst h7
                    simp only [] at h
                    rw [if_true] at h
                    cases hsf : serializeFields _ with
                    | error e => rw [hsf] at h; simp [Except.map] at h
                    | ok fs =>
                      rw [hsf] at h
                      simp only [Except.map, Except.ok.injEq] at h
                      obtain ⟨hk, -⟩ := RecordResult.entry.inj h
                      rw [← hk]
                      decide
                  · rw [if_neg h7] at h
                    simp at h


theorem wf_bucketAppend {bs : List (String × List String)} {k v : String}
    (hwf : ∀ b ∈ bs, b.1 ∈ bucketNames ∧ b.2 ≠ []) (hk : k ∈ bucketNames) :
    ∀ b ∈ bucketAppend bs k v, b.1 ∈ bucketNames ∧ b.2 ≠ [] := by
  induction bs with
  | nil =>
    intro b hb
    simp only [bucketAppend, List.mem_singleton] at hb
    subst hb
    exact ⟨hk, by simp⟩
  | cons e rest ih =>
    obtain ⟨k', vs⟩ := e
    intro b hb
    simp only [bucketAppend] at hb
    by_cases hke : k' = k
    · rw [if_pos hke] at hb
      cases hb with
      | head => exact ⟨(hwf (k', vs) (by simp)).1, by simp⟩
      | tail _ hb' => exact hwf b (List.mem_cons_of_mem _ hb')
    · rw [if_neg hke] at hb
      cases hb with
      | head => exact hwf (k', vs) (by simp)
      | tail _ hb' => exact ih (fun b2 hb2 => hwf b2 (List.mem_cons_of_mem _ hb2)) b hb'

theorem processFrom_wf {recs : List RawRecord} {st st' : MainState}
    (h : processFrom st recs = .ok st')
    (hwf : ∀ b ∈ st.buckets, b.1 ∈ bucketNames ∧ b.2 ≠ []) :
    ∀ b ∈ st'.buckets, b.1 ∈ bucketNames ∧ b.2 ≠ [] := by
  induction recs generalizing st with
  | nil =>
    simp only [processFrom] at h
    injection h with h
    rw [← h]
    exact hwf
  | cons a rs ih =>
    simp only [processFrom, mainStep] at h
    cases hc : classifyRecord a with
    | error e => rw [hc] at h; exact Except.noConfusion h
    | ok res =>
      rw [hc] at h
      refine ih h ?_
      cases res with
      | fileDate d => exact hwf
      | unexpected r2 => exact hwf
      | entry k s => exact wf_bucketAppend hwf (classify_entry_name hc)

theorem renderArrays_ok {bs : List (String × List String)}
    (h : ∀ b ∈ bs, b.2 ≠ []) :
    renderArrays bs = .ok (bs.map (fun b => renderArray b.1 (pySort b.2))) := by
  induction bs with
  | nil => rfl
  | cons b rest ih =>
    have hb : b.2 ≠ [] := h b (by simp)
    have hs : pySort b.2 ≠ [] := by
      intro hx
      have hlen : (pySort b.2).length = b.2.length :=
        (@List.perm_insertionSort String strLe strLeDec b.2).length_eq
      rw [hx] at hlen
      exact hb (List.eq_nil_of_length_eq_zero hlen.symm)
    simp only [renderArrays, List.map_cons]
    cases hps : pySort b.2 with
    | nil => exact absurd hps hs
    | cons x xs =>
      simp only [serialize_static_array]
      rw [ih (fun b2 hb2 => h b2 (List.mem_cons_of_mem _ hb2))]

set_option maxRecDepth 10000 in
/-- Claim C9, counterexample: on a valid registry input containing only a
language record (and the File-Date header), the run succeeds and the
artifact contains a `LANGUAGES` array but no `EXTLANGS` declaration at all
— an array is emitted only for kinds with at least one record, not one per
kind. -/
theorem c9_counterexample :
    isOkE (run ["File-Date: 2024-01-01", "%%", "Type: language", "Subtag: aa"]) = true
      ∧ okContains (run ["File-Date: 2024-01-01", "%%", "Type: language", "Subtag: aa"])
          "LANGUAGES" = true
      ∧ okContains (run ["File-Date: 2024-01-01", "%%", "Type: language", "Subtag: aa"])
          "EXTLANGS" = false :=
  ⟨rfl, rfl, rfl⟩

/-- Claim C9 (amended): on success the artifact is exactly the shared
record-shape declarations once, followed by one static array per bucket in
first-appearance order; every bucket carries one of the seven
pluralized upper-cased kind names, is nonempty, and its rendered array is
sized to the number of entries collected for that kind (sorting preserves
the count); kinds with zero records get no array. -/
theorem c9_output_shape (lines : List String) (st : MainState) (out : String)
    (hp : pipelineState lines = .ok st) (hr : run lines = .ok out) :
    out = structDefinitions
        ++ String.join (st.buckets.map (fun b => renderArray b.1 (pySort b.2)))
      ∧ ∀ b ∈ st.buckets, b.1 ∈ bucketNames ∧ b.2 ≠ []
        ∧ (pySort b.2).length = b.2.length := by
  have hwf : ∀ b ∈ st.buckets, b.1 ∈ bucketNames ∧ b.2 ≠ [] := by
    unfold pipelineState at hp
    cases hpr : parseRegistry lines with
    | error e => rw [hpr] at hp; exact Except.noConfusion hp
    | ok recs =>
      rw [hpr] at hp
      exact processFrom_wf hp (by intro b hb; cases hb)
  constructor
  · unfold run at hr
    rw [hp] at hr
    simp only [] at hr
    unfold renderOutput at hr
    rw [renderArrays_ok (fun b hb => (hwf b hb).2)] at hr
    simp only [] at hr
    injection hr with hr
    exact hr.symm
  · intro b hb
    exact ⟨(hwf b hb).1, (hwf b hb).2,
      (@List.perm_insertionSort String strLe strLeDec b.2).length_eq⟩

theorem c9_witness :
    structDefinitions
        ++ String.join (initMain.buckets.map (fun b => renderArray b.1 (pySort b.2)))
      = structDefinitions
        ++ String.join (initMain.buckets.map (fun b => renderArray b.1 (pySort b.2)))
    ∧ ∀ b ∈ initMain.buckets, b.1 ∈ bucketNames ∧ b.2 ≠ []
      ∧ (pySort b.2).length = b.2.length :=
  c9_output_shape [] initMain
    (structDefinitions
      ++ String.join (initMain.buckets.map (fun b => renderArray b.1 (pySort b.2))))
    rfl rfl
